import Mathlib

/-!
Shallow embedding of the NutriScan client-side scripts
(`src/static/sw.js` and `src/static/js/main.js`) and verification of
the specification's claims about them.

The service worker's cache storage is modelled as an association list
from cache names to caches; a cache is an association list from request
URLs to stored responses.  The page controller's widgets are modelled as
pure functions producing explicit traces of DOM / network effects.
-/

namespace NutriScan

/-! ### Service worker (`src/static/sw.js`) -/

/-- Cache version string, `sw.js` line 1. -/
def CACHE_NAME : String := "fruitveg-cache-v2"

/-- The fixed asset list cached on install, `sw.js` lines 2-14. -/
def urlsToCache : List String :=
  [ "/",
    "/login",
    "/static/css/style.css",
    "/static/js/main.js",
    "/static/manifest.json",
    "/static/images/android-chrome-192x192.png",
    "/static/images/android-chrome-512x512.png",
    "/static/images/apple-touch-icon.png",
    "/static/images/favicon-16x16.png",
    "/static/images/favicon-32x32.png",
    "/static/images/favicon.ico" ]

/-- A single cache: request URL to stored response body. -/
abbrev Cache := List (String × String)

/-- The CacheStorage: cache name to cache contents. -/
abbrev CacheStorage := List (String × Cache)

/-- Lookup of a request in one cache (exact request match). -/
def cacheMatch (c : Cache) (req : String) : Option String :=
  (c.find? (fun e => e.1 == req)).map (fun e => e.2)

/-- Lookup across all caches in order, as performed by the global
match over the cache storage. -/
def cachesMatch : CacheStorage → String → Option String
  | [], _ => none
  | (_, c) :: rest, req =>
    match cacheMatch c req with
    | some r => some r
    | none => cachesMatch rest req

/-- The fetch handler, `sw.js` lines 39-45: respond with a cached match
if one exists, otherwise with the network result.  The triple returned
makes the effects explicit: the response served, the number of network
fetches issued, and the cache storage after handling (the handler never
writes to the cache). -/
def handleFetch (cs : CacheStorage) (network : String → String) (req : String) :
    String × Nat × CacheStorage :=
  match cachesMatch cs req with
  | some r => (r, 0, cs)
  | none => (network req, 1, cs)

/-- Names of the existing caches (the keys of the cache storage). -/
def cachesKeys (cs : CacheStorage) : List String := cs.map (fun e => e.1)

/-- Deletion of the cache with a given name. -/
def cachesDelete (cs : CacheStorage) (nm : String) : CacheStorage :=
  cs.filter (fun e => e.1 != nm)

/-- The activate handler, `sw.js` lines 27-35: enumerate the cache
names, and delete every cache whose name differs from `CACHE_NAME`. -/
def activate (cs : CacheStorage) : CacheStorage :=
  ((cachesKeys cs).filter (fun nm => nm != CACHE_NAME)).foldl cachesDelete cs

/-- Batch population of a cache (`cache.addAll`): fetch every URL in
order; if any fetch fails the whole operation fails and no partial
cache is produced. -/
def addAll (fetchFn : String → Option String) : List String → Option Cache
  | [] => some []
  | u :: rest =>
    match fetchFn u with
    | none => none
    | some r => (addAll fetchFn rest).map (fun c => (u, r) :: c)

/-- The install handler, `sw.js` lines 17-24: open the versioned cache
and populate it with `urlsToCache`; `none` means the install step
failed. -/
def installCache (fetchFn : String → Option String) : Option Cache :=
  addAll fetchFn urlsToCache

/-! ### Chat widget (`src/static/js/main.js`, lines 89-168) -/

/-- A message in the chat transcript: user bubble, bot bubble, or the
typing placeholder appended while awaiting the bot reply. -/
inductive Msg where
  | user (t : String)
  | bot (t : String)
  | typing
deriving DecidableEq

/-- Whitespace trimming as performed on the input field's value:
drops leading and trailing whitespace characters. -/
def jsTrim (s : String) : String :=
  String.mk (((s.data.dropWhile Char.isWhitespace).reverse.dropWhile
    Char.isWhitespace).reverse)

/-- Escaping of one character as performed by JSON string
serialization of the request body. -/
def jsonEscapeChar (c : Char) : String :=
  if c = '"' then "\\\""
  else if c = '\\' then "\\\\"
  else if c = '\n' then "\\n"
  else if c = '\r' then "\\r"
  else if c = '\t' then "\\t"
  else String.singleton c

/-- JSON escaping of a string. -/
def jsonEscape (s : String) : String :=
  String.join (s.toList.map jsonEscapeChar)

/-- The serialized POST body for a prompt: the JSON object with the
single field named prompt, i.e. \x7b"prompt":"..."\x7d. -/
def stringifyPromptBody (p : String) : String :=
  "\x7b\"prompt\":\"" ++ jsonEscape p ++ "\"\x7d"

/-- Observable effects of one invocation of the chat send operation. -/
inductive ChatEvent where
  | appendUser (t : String)
  | clearInput
  | appendTyping
  | post (url : String) (body : String)
  | removeTyping
  | appendBot (t : String)
deriving DecidableEq

/-- State touched by the chat widget: the transcript container and the
text input field's value. -/
structure ChatState where
  transcript : List Msg
  inputValue : String
deriving DecidableEq

/-- Removes the first typing placeholder of a list of messages. -/
def removeFirstTyping : List Msg → List Msg
  | [] => []
  | m :: rest => if m = Msg.typing then rest else m :: removeFirstTyping rest

/-- Removal of the typing element referenced by the widget: the most
recently appended typing placeholder. -/
def eraseLastTyping (ts : List Msg) : List Msg :=
  (removeFirstTyping ts.reverse).reverse

/-- Effect of one chat event on the widget state.  A post event is a
pure network effect and leaves the widget state unchanged. -/
def applyEvent (s : ChatState) : ChatEvent → ChatState
  | .appendUser t => { s with transcript := s.transcript ++ [Msg.user t] }
  | .clearInput => { s with inputValue := "" }
  | .appendTyping => { s with transcript := s.transcript ++ [Msg.typing] }
  | .post _ _ => s
  | .removeTyping => { s with transcript := eraseLastTyping s.transcript }
  | .appendBot t => { s with transcript := s.transcript ++ [Msg.bot t] }

/-- Running a trace of chat events over a widget state. -/
def runEvents (s : ChatState) (es : List ChatEvent) : ChatState :=
  es.foldl applyEvent s

/-- Whether an event is a network POST. -/
def isPost : ChatEvent → Bool
  | .post _ _ => true
  | _ => false

/-- Number of POST requests in a trace. -/
def countPosts (es : List ChatEvent) : Nat := (es.filter isPost).length

/-- The send operation, `main.js` lines 146-163.  `textArg` is the
optional text argument (`some` for a voice transcript, `none` when the
prompt is read from the input field); `server` maps a prompt to `some`
reply when the POST succeeds with a parseable JSON body and to `none`
on a network error or unparseable body, in which case the async
function rejects and no further effect occurs. -/
def sendMessage (textArg : Option String) (inputValue : String)
    (server : String → Option String) : List ChatEvent :=
  let prompt := textArg.getD (jsTrim inputValue)
  if prompt = "" then []
  else
    ChatEvent.appendUser prompt ::
      ((if textArg.isNone then [ChatEvent.clearInput] else []) ++
        (ChatEvent.appendTyping ::
          ChatEvent.post "/api/berrybot" (stringifyPromptBody prompt) ::
            (match server prompt with
              | some reply => [ChatEvent.removeTyping, ChatEvent.appendBot reply]
              | none => [])))

/-! ### Tab switching (`src/static/js/main.js`, lines 8-15) -/

/-- A tab button: its data-tab attribute and whether it carries the
active class. -/
structure TabBtn where
  dataTab : String
  active : Bool
deriving DecidableEq

/-- A tab panel: its element id and whether it carries the active
class. -/
structure TabPanel where
  id : String
  active : Bool
deriving DecidableEq

/-- Adds the active class to the button at position `i`. -/
def setActiveAt : List TabBtn → Nat → List TabBtn
  | [], _ => []
  | b :: bs, 0 => { b with active := true } :: bs
  | b :: bs, n + 1 => b :: setActiveAt bs n

/-- getElementById followed by adding the active class: activates the
first panel whose id matches, and fails (a thrown TypeError on a null
element) when no panel has the id. -/
def addActiveById : List TabPanel → String → Option (List TabPanel)
  | [], _ => none
  | p :: ps, tid =>
    if p.id = tid then some ({ p with active := true } :: ps)
    else (addActiveById ps tid).map (fun l => p :: l)

/-- The tab-button click handler: deactivate every button and every
panel, then activate the clicked button and the panel named by its
data-tab attribute.  `none` models the thrown TypeError when the named
panel does not exist (and the vacuous case of a click on a
non-existent button). -/
def clickTab (btns : List TabBtn) (panels : List TabPanel) (i : Nat) :
    Option (List TabBtn × List TabPanel) :=
  if h : i < btns.length then
    let btns1 := btns.map (fun b => { b with active := false })
    let panels1 := panels.map (fun p => { p with active := false })
    let target := (btns.get ⟨i, h⟩).dataTab
    (addActiveById panels1 target).map (fun ps => (setActiveAt btns1 i, ps))
  else none

/-! ### Fortune spinner (`src/static/js/main.js`, lines 63-87) -/

/-- The fixed fortune list, `main.js` lines 64-70. -/
def fortunes : List String :=
  [ "🍌 Tip: Keep bananas away from apples to slow ripening!",
    "🥝 Fact: Kiwis have more vitamin C than oranges!",
    "🍇 Challenge: Try a fruit you’ve never eaten this week!",
    "🍍 Tip: Pineapple helps with digestion!",
    "🍓 Fact: Strawberries are the only fruit with seeds on the outside!" ]

/-- Observable effects of one spin. -/
inductive SpinEvent where
  | setTransition (v : String)
  | setTransform (deg : ℤ)
  | setResult (msg : String)
  | confettiBurst
deriving DecidableEq

/-- The fortune index computed from one sample of the random source:
the floor of the sample times the length of the fortune list. -/
def spinIndex (r : ℚ) : ℕ :=
  (⌊r * (fortunes.length : ℚ)⌋).toNat

/-- The message displayed after a spin, for fortune-index sample `r`. -/
def spinMessage (r : ℚ) : String :=
  fortunes.getD (spinIndex r) ""

/-- The spin operation, `main.js` lines 74-86, with the two samples of
the random source made explicit: `r1` drives the rotation offset and
`r2` the fortune choice.  The trace records, in order: transition
disabled and rotation reset to zero; the eased transition enabled and
the target rotation set; after the fixed 2s duration, the result
message displayed and a particle effect fired. -/
def spinWheel (r1 r2 : ℚ) : List SpinEvent :=
  [ SpinEvent.setTransition "none",
    SpinEvent.setTransform 0,
    SpinEvent.setTransition "transform 2s ease-out",
    SpinEvent.setTransform (360 * 3 + ⌊r1 * 360⌋),
    SpinEvent.setResult (spinMessage r2),
    SpinEvent.confettiBurst ]

/-- Whether a spin event displays a result message. -/
def isSetResult : SpinEvent → Bool
  | .setResult _ => true
  | _ => false

/-! ### Widget initialization guards (`src/static/js/main.js`) -/

/-- Presence of the optional DOM elements at initialization time, and
the number of tab buttons present. -/
structure Dom where
  tabBtns : Nat
  imageInput : Bool
  spinBtn : Bool
  toggle : Bool
  voiceBtn : Bool
  sendBtn : Bool
  inputField : Bool
  chartToggle : Bool
  chartPanel : Bool
deriving DecidableEq

/-- The initialization effects: event listeners registered and the
produce grid injection. -/
inductive Listener where
  | tabBtn
  | imageInput
  | spinBtn
  | chatToggle
  | voiceBtn
  | sendBtn
  | inputKeypress
  | chartToggle
  | gridInject
deriving DecidableEq

/-- A registration guarded by an existence check (optional chaining):
performed only when the element is present. -/
def optL (present : Bool) (l : Listener) : List Listener :=
  if present then [l] else []

/-- The DOMContentLoaded initialization, `main.js` lines 4-218, as the
list of effects performed in source order together with a flag
recording whether initialization threw.  Every widget registration up
to line 168 is guarded (forEach over the matched buttons, or optional
chaining); the chart toggle registration at line 173 dereferences the
element without a guard, so a missing chart toggle throws there and
aborts the rest, while the grid injection at line 196 is guarded by an
existence check. -/
def initPage (d : Dom) : List Listener × Bool :=
  let pre :=
    List.replicate d.tabBtns Listener.tabBtn
      ++ optL d.imageInput Listener.imageInput
      ++ optL d.spinBtn Listener.spinBtn
      ++ optL d.toggle Listener.chatToggle
      ++ optL d.voiceBtn Listener.voiceBtn
      ++ optL d.sendBtn Listener.sendBtn
      ++ optL d.inputField Listener.inputKeypress
  if d.chartToggle then
    (pre ++ [Listener.chartToggle] ++ optL d.chartPanel Listener.gridInject, false)
  else
    (pre, true)

/-- The chart toggle click handler, `main.js` lines 173-176: toggles
the revealed class on the chart panel; dereferencing a missing panel
throws. -/
def chartToggleClick (chartPanelPresent : Bool) (revealed : Bool) :
    Except String Bool :=
  if chartPanelPresent then Except.ok (!revealed)
  else Except.error "TypeError: cannot read classList of null"

/-! ### Chat panel visibility (`src/static/js/main.js`, lines 98-124) -/

/-- The hidden / visible class membership of the chat panel. -/
structure PanelClasses where
  hidden : Bool
  visible : Bool
deriving DecidableEq

/-- The chat toggle button handler, `main.js` lines 98-101: toggles
both classes. -/
def toggleClick (p : PanelClasses) : PanelClasses :=
  { hidden := !p.hidden, visible := !p.visible }

/-- Effect raised by the voice button besides the class changes. -/
inductive VoiceEffect where
  | recognitionStarted
  | alertUnsupported
deriving DecidableEq

/-- The voice button handler, `main.js` lines 103-124: the panel is
unconditionally shown (hidden removed, visible added) before the
speech-recognition capability check; the unsupported branch only
alerts. -/
def voiceClick (p : PanelClasses) (supported : Bool) :
    PanelClasses × VoiceEffect :=
  let p1 := { p with hidden := false }
  let p2 := { p1 with visible := true }
  if supported then (p2, VoiceEffect.recognitionStarted)
  else (p2, VoiceEffect.alertUnsupported)

/-! ### Helper lemmas -/

theorem foldl_cachesDelete (names : List String) :
    ∀ cs : CacheStorage, names.foldl cachesDelete cs
      = cs.filter (fun e => !(names.contains e.1)) := by
  induction names with
  | nil => intro cs; simp
  | cons n ns ih =>
    intro cs
    simp only [List.foldl_cons, ih, cachesDelete, List.filter_filter]
    apply List.filter_congr
    intro e _
    by_cases h : e.1 = n <;> simp [h]

theorem activate_eq_filter (cs : CacheStorage) :
    activate cs = cs.filter (fun e => e.1 == CACHE_NAME) := by
  rw [activate, foldl_cachesDelete]
  apply List.filter_congr
  intro e he
  have hk : e.1 ∈ cachesKeys cs := List.mem_map_of_mem _ he
  by_cases h : e.1 = CACHE_NAME <;> simp [h, hk]

theorem addAll_none (fetchFn : String → Option String) :
    ∀ urls : List String, (∃ u ∈ urls, fetchFn u = none) →
      addAll fetchFn urls = none := by
  intro urls
  induction urls with
  | nil => rintro ⟨u, hu, _⟩; cases hu
  | cons u rest ih =>
    rintro ⟨v, hv, hnone⟩
    rcases List.mem_cons.mp hv with rfl | hv'
    · simp [addAll, hnone]
    · rw [addAll]
      cases hf : fetchFn u
      · rfl
      · rw [ih ⟨v, hv', hnone⟩]
        rfl

theorem addAll_some (fetchFn : String → Option String) :
    ∀ urls : List String, (∀ u ∈ urls, (fetchFn u).isSome) →
      ∃ c : Cache, addAll fetchFn urls = some c ∧ c.map (fun e => e.1) = urls := by
  intro urls
  induction urls with
  | nil => intro _; exact ⟨[], rfl, rfl⟩
  | cons u rest ih =>
    intro hall
    have hu : (fetchFn u).isSome := hall u (List.mem_cons_self u rest)
    rcases Option.isSome_iff_exists.mp hu with ⟨r, hr⟩
    rcases ih (fun v hv => hall v (List.mem_cons_of_mem u hv)) with ⟨c, hc, hmap⟩
    refine ⟨(u, r) :: c, ?_, ?_⟩
    · rw [addAll, hr, hc]
      rfl
    · simp [hmap]

/-! ### Claims about the service worker -/

/-- C1: for every intercepted fetch request, if a cached response
matches the request exactly the handler returns it with no network
call; otherwise it forwards to the network exactly once and returns
the network result unmodified; in neither case does the handler write
anything back to the cache. -/
theorem fetch_cache_first_no_writeback
    (cs : CacheStorage) (network : String → String) (req : String) :
    (∀ r, cachesMatch cs req = some r →
        handleFetch cs network req = (r, 0, cs))
    ∧ (cachesMatch cs req = none →
        handleFetch cs network req = (network req, 1, cs))
    ∧ (handleFetch cs network req).2.2 = cs := by
  refine ⟨?_, ?_, ?_⟩
  · intro r hr
    simp [handleFetch, hr]
  · intro hr
    simp [handleFetch, hr]
  · cases hr : cachesMatch cs req <;> simp [handleFetch, hr]

/-- Witness for the fetch handler claim at a concrete cache storage:
a cached request is served from the cache without a network call, and
an uncached one is served by one network fetch. -/
theorem fetch_cache_first_no_writeback_witness :
    handleFetch [(CACHE_NAME, [("/", "home-page")])] (fun _ => "net-result") "/"
        = ("home-page", 0, [(CACHE_NAME, [("/", "home-page")])])
    ∧ handleFetch [(CACHE_NAME, [("/", "home-page")])] (fun _ => "net-result") "/other"
        = ("net-result", 1, [(CACHE_NAME, [("/", "home-page")])]) :=
  ⟨(fetch_cache_first_no_writeback _ _ _).1 "home-page" (by decide),
   (fetch_cache_first_no_writeback _ _ _).2.1 (by decide)⟩

/-- C2 counterexample: the claim that after activation exactly one
cache exists fails for a starting cache storage that does not contain
the current version: activation only deletes, so starting from a
storage holding only the old cache fruitveg-cache-v1, zero caches
remain. -/
theorem activate_counterexample :
    activate [("fruitveg-cache-v1", [])] = []
    ∧ ¬ ((activate [("fruitveg-cache-v1", [])]).length = 1) := by
  constructor
  · decide
  · decide

/-- C2 (amended): activation deletes exactly those caches whose name
differs from the current version string; the surviving caches are
exactly the entries named CACHE_NAME, so after activation every
remaining cache matches the current version, none remains when the
current version was absent, and exactly one remains when the cache
names are distinct and the current version was present. -/
theorem activate_keeps_only_current (cs : CacheStorage) :
    activate cs = cs.filter (fun e => e.1 == CACHE_NAME)
    ∧ (∀ e ∈ activate cs, e.1 = CACHE_NAME)
    ∧ (∀ e ∈ cs, e.1 ≠ CACHE_NAME → e ∉ activate cs)
    ∧ (∀ e ∈ cs, e.1 = CACHE_NAME → e ∈ activate cs)
    ∧ (CACHE_NAME ∉ cachesKeys cs → activate cs = [])
    ∧ ((cachesKeys cs).Nodup → CACHE_NAME ∈ cachesKeys cs →
        (activate cs).length = 1) := by
  have hf := activate_eq_filter cs
  refine ⟨hf, ?_, ?_, ?_, ?_, ?_⟩
  · intro e he
    rw [hf] at he
    have := (List.mem_filter.mp he).2
    simpa using this
  · intro e _ hne hmem
    rw [hf] at hmem
    have := (List.mem_filter.mp hmem).2
    exact hne (by simpa using this)
  · intro e he heq
    rw [hf]
    exact List.mem_filter.mpr ⟨he, by simpa using heq⟩
  · intro habs
    rw [hf]
    rw [List.filter_eq_nil_iff]
    intro e he
    simp only [beq_iff_eq]
    intro heq
    exact habs (heq ▸ List.mem_map_of_mem _ he)
  · intro hnd hmem
    rw [hf]
    have hmap : ∀ l : CacheStorage,
        (l.filter (fun e => e.1 == CACHE_NAME)).map (fun e => e.1)
          = (l.map (fun e => e.1)).filter (fun k => k == CACHE_NAME) := by
      intro l
      induction l with
      | nil => rfl
      | cons x xs ih => by_cases h : x.1 = CACHE_NAME <;> simp [h, ih]
    have hlen : (cs.filter (fun e => e.1 == CACHE_NAME)).length
        = ((cs.map (fun e => e.1)).filter (fun k => k == CACHE_NAME)).length := by
      rw [← hmap cs, List.length_map]
    rw [hlen]
    have hcount : ((cs.map (fun e => e.1)).filter (fun k => k == CACHE_NAME)).length
        = (cs.map (fun e => e.1)).count CACHE_NAME := by
      rw [List.count, List.countP_eq_length_filter]
    rw [hcount]
    exact List.count_eq_one_of_mem hnd hmem

/-- Witness for the amended activation claim at a concrete storage:
from an old and the current cache, only the current one survives. -/
theorem activate_keeps_only_current_witness :
    activate [("fruitveg-cache-v1", []), ("fruitveg-cache-v2", [])]
        = [("fruitveg-cache-v2", [])]
    ∧ (activate [("fruitveg-cache-v1", []), ("fruitveg-cache-v2", [])]).length = 1 := by
  have h := activate_keeps_only_current
    [("fruitveg-cache-v1", []), ("fruitveg-cache-v2", [])]
  refine ⟨?_, h.2.2.2.2.2 (by decide) (by decide)⟩
  rw [h.1]
  decide

/-- C7: the install step populates the versioned cache with the fixed
11-entry asset list; if fetching any listed URL fails the whole
install fails with no partial cache, and if all fetches succeed the
cache holds exactly the listed URLs in order. -/
theorem install_fixed_list_all_or_nothing :
    urlsToCache.length = 11
    ∧ (∀ fetchFn : String → Option String,
        (∃ u ∈ urlsToCache, fetchFn u = none) → installCache fetchFn = none)
    ∧ (∀ fetchFn : String → Option String,
        (∀ u ∈ urlsToCache, (fetchFn u).isSome) →
          ∃ c : Cache, installCache fetchFn = some c
            ∧ c.map (fun e => e.1) = urlsToCache) := by
  refine ⟨by decide, ?_, ?_⟩
  · intro fetchFn hex
    exact addAll_none fetchFn urlsToCache hex
  · intro fetchFn hall
    exact addAll_some fetchFn urlsToCache hall

/-- Witness for the install claim: with every fetch succeeding the
cache holds all 11 assets, and with the stylesheet unreachable the
install step fails. -/
theorem install_fixed_list_all_or_nothing_witness :
    (∃ c : Cache, installCache (fun _ => some "asset") = some c
      ∧ c.map (fun e => e.1) = urlsToCache)
    ∧ installCache
        (fun u => if u = "/static/css/style.css" then none else some "asset")
        = none := by
  constructor
  · exact install_fixed_list_all_or_nothing.2.2 (fun _ => some "asset")
      (fun u _ => rfl)
  · exact install_fixed_list_all_or_nothing.2.1 _
      ⟨"/static/css/style.css", by decide, by decide⟩

/-! ### Claims about the chat widget -/

theorem eraseLastTyping_append_typing (l : List Msg) :
    eraseLastTyping (l ++ [Msg.typing]) = l := by
  simp [eraseLastTyping, removeFirstTyping]

/-- C3: for every prompt non-empty after trimming, the send operation
in order appends the user message, clears the input exactly when the
prompt came from the text input, appends the typing placeholder,
issues exactly one POST of the JSON prompt body to /api/berrybot, and
on a JSON reply removes the placeholder and appends the bot message,
leaving the transcript with the user and bot bubbles and no typing
indicator from this send. -/
theorem sendMessage_success_flow (input : String) (server : String → Option String)
    (reply : String) (ts0 : List Msg) (hne : (jsTrim input) ≠ "")
    (hs : server (jsTrim input) = some reply) :
    sendMessage none input server =
      [ ChatEvent.appendUser (jsTrim input), ChatEvent.clearInput, ChatEvent.appendTyping,
        ChatEvent.post "/api/berrybot" (stringifyPromptBody (jsTrim input)),
        ChatEvent.removeTyping, ChatEvent.appendBot reply ]
    ∧ countPosts (sendMessage none input server) = 1
    ∧ runEvents ⟨ts0, input⟩ (sendMessage none input server)
        = ⟨ts0 ++ [Msg.user (jsTrim input), Msg.bot reply], ""⟩
    ∧ (∀ v : String, v ≠ "" → ∀ rv, server v = some rv →
        sendMessage (some v) input server =
          [ ChatEvent.appendUser v, ChatEvent.appendTyping,
            ChatEvent.post "/api/berrybot" (stringifyPromptBody v),
            ChatEvent.removeTyping, ChatEvent.appendBot rv ]) := by
  have htrace : sendMessage none input server =
      [ ChatEvent.appendUser (jsTrim input), ChatEvent.clearInput, ChatEvent.appendTyping,
        ChatEvent.post "/api/berrybot" (stringifyPromptBody (jsTrim input)),
        ChatEvent.removeTyping, ChatEvent.appendBot reply ] := by
    simp [sendMessage, hne, hs]
  refine ⟨htrace, ?_, ?_, ?_⟩
  · rw [htrace]
    simp [countPosts, isPost]
  · rw [htrace]
    simp only [runEvents, List.foldl_cons, List.foldl_nil, applyEvent]
    have h1 : (ts0 ++ [Msg.user (jsTrim input)]) ++ [Msg.typing]
        = (ts0 ++ [Msg.user (jsTrim input)]) ++ [Msg.typing] := rfl
    rw [eraseLastTyping_append_typing]
    simp
  · intro v hv rv hrv
    simp [sendMessage, hv, hrv]

/-- Witness for the send success claim: prompt hello with mocked reply
hi! produces exactly the claimed trace and final transcript. -/
theorem sendMessage_success_flow_witness :
    sendMessage none "hello" (fun _ => some "hi!") =
      [ ChatEvent.appendUser "hello", ChatEvent.clearInput, ChatEvent.appendTyping,
        ChatEvent.post "/api/berrybot" (stringifyPromptBody "hello"),
        ChatEvent.removeTyping, ChatEvent.appendBot "hi!" ]
    ∧ countPosts (sendMessage none "hello" (fun _ => some "hi!")) = 1
    ∧ runEvents ⟨[], "hello"⟩ (sendMessage none "hello" (fun _ => some "hi!"))
        = ⟨[Msg.user "hello", Msg.bot "hi!"], ""⟩ := by
  have h := sendMessage_success_flow "hello" (fun _ => some "hi!") "hi!" []
    (by decide) rfl
  have htrim : (jsTrim "hello") = "hello" := by decide
  refine ⟨?_, ?_, ?_⟩
  · rw [h.1, htrim]
  · exact h.2.1
  · rw [h.2.2.1, htrim]
    simp

/-- C4: an empty or whitespace-only text-input value, and an empty
voice transcript, make the send operation a no-op: no event is
produced, so no network request is issued, nothing is appended to the
transcript, and the widget state is unchanged. -/
theorem sendMessage_empty_noop (input : String) (server : String → Option String)
    (hws : (jsTrim input) = "") :
    sendMessage none input server = []
    ∧ sendMessage (some "") input server = []
    ∧ countPosts (sendMessage none input server) = 0
    ∧ (∀ s : ChatState, runEvents s (sendMessage none input server) = s) := by
  have h1 : sendMessage none input server = [] := by
    simp [sendMessage, hws]
  have h2 : sendMessage (some "") input server = [] := by
    simp [sendMessage]
  exact ⟨h1, h2, by rw [h1]; rfl, fun s => by rw [h1]; rfl⟩

/-- Witness for the no-op claim on a whitespace-only input value. -/
theorem sendMessage_empty_noop_witness :
    sendMessage none "   " (fun _ => some "hi!") = []
    ∧ runEvents ⟨[], "   "⟩ (sendMessage none "   " (fun _ => some "hi!"))
        = ⟨[], "   "⟩ := by
  have h := sendMessage_empty_noop "   " (fun _ => some "hi!") (by decide)
  exact ⟨h.1, h.2.2.2 ⟨[], "   "⟩⟩

/-- C5: when the POST fails or the response body is not parseable
JSON, the send operation stops after the POST event: the typing
placeholder is never removed, no bot message is appended, and the
typing indicator is left in the transcript. -/
theorem sendMessage_failure_typing_stuck (textArg : Option String)
    (input : String) (server : String → Option String) (ts0 : List Msg)
    (hne : textArg.getD (jsTrim input) ≠ "")
    (hf : server (textArg.getD (jsTrim input)) = none) :
    sendMessage textArg input server =
      ChatEvent.appendUser (textArg.getD (jsTrim input)) ::
        ((if textArg.isNone then [ChatEvent.clearInput] else []) ++
          [ ChatEvent.appendTyping,
            ChatEvent.post "/api/berrybot"
              (stringifyPromptBody (textArg.getD (jsTrim input))) ])
    ∧ ChatEvent.removeTyping ∉ sendMessage textArg input server
    ∧ (∀ r, ChatEvent.appendBot r ∉ sendMessage textArg input server)
    ∧ Msg.typing ∈ (runEvents ⟨ts0, input⟩ (sendMessage textArg input server)).transcript := by
  have htrace : sendMessage textArg input server =
      ChatEvent.appendUser (textArg.getD (jsTrim input)) ::
        ((if textArg.isNone then [ChatEvent.clearInput] else []) ++
          [ ChatEvent.appendTyping,
            ChatEvent.post "/api/berrybot"
              (stringifyPromptBody (textArg.getD (jsTrim input))) ]) := by
    simp [sendMessage, hne, hf]
  refine ⟨htrace, ?_, ?_, ?_⟩
  · rw [htrace]
    cases textArg <;> simp
  · intro r
    rw [htrace]
    cases textArg <;> simp
  · rw [htrace]
    cases textArg <;>
      simp [runEvents, applyEvent]

/-- Witness for the failure claim: a failing server leaves the trace
without removal of the typing placeholder, and the placeholder stuck
in the transcript. -/
theorem sendMessage_failure_typing_stuck_witness :
    sendMessage none "hello" (fun _ => none) =
      [ ChatEvent.appendUser "hello", ChatEvent.clearInput,
        ChatEvent.appendTyping,
        ChatEvent.post "/api/berrybot" (stringifyPromptBody "hello") ]
    ∧ ChatEvent.removeTyping ∉ sendMessage none "hello" (fun _ => none)
    ∧ Msg.typing ∈ (runEvents ⟨[], "hello"⟩
        (sendMessage none "hello" (fun _ => none))).transcript := by
  have h := sendMessage_failure_typing_stuck none "hello" (fun _ => none) []
    (by decide) rfl
  have htrim : (none : Option String).getD ((jsTrim "hello")) = "hello" := by decide
  refine ⟨?_, ?_, h.2.2.2⟩
  · rw [h.1, htrim]
    rfl
  · exact h.2.1

/-! ### Claims about tab switching -/

theorem countP_deactivated (btns : List TabBtn) :
    (btns.map (fun b => { b with active := false })).countP (fun b => b.active) = 0 := by
  induction btns with
  | nil => rfl
  | cons b bs ih => simp [List.countP_cons, ih]

theorem countP_panels_deactivated (panels : List TabPanel) :
    (panels.map (fun p => { p with active := false })).countP (fun p => p.active) = 0 := by
  induction panels with
  | nil => rfl
  | cons p ps ih => simp [List.countP_cons, ih]

theorem setActiveAt_length (btns : List TabBtn) :
    ∀ i, (setActiveAt btns i).length = btns.length := by
  induction btns with
  | nil => intro i; rfl
  | cons b bs ih =>
    intro i
    cases i with
    | zero => rfl
    | succ n => simp [setActiveAt, ih n]

theorem setActiveAt_countP (btns : List TabBtn) :
    ∀ i, i < btns.length → btns.countP (fun b => b.active) = 0 →
      (setActiveAt btns i).countP (fun b => b.active) = 1 := by
  induction btns with
  | nil => intro i hi; cases hi
  | cons b bs ih =>
    intro i hi h0
    rw [List.countP_cons] at h0
    have hb : b.active = false := by
      by_contra hb
      simp [eq_true_of_ne_false hb] at h0
    have hbs : bs.countP (fun x => x.active) = 0 := by
      omega
    cases i with
    | zero => simp [setActiveAt, List.countP_cons, hbs]
    | succ n =>
      have := ih n (Nat.lt_of_succ_lt_succ hi) hbs
      simp [setActiveAt, List.countP_cons, this, hb]

theorem setActiveAt_get? (btns : List TabBtn) :
    ∀ i, i < btns.length →
      (setActiveAt btns i).get? i
        = (btns.get? i).map (fun b => { b with active := true }) := by
  induction btns with
  | nil => intro i hi; cases hi
  | cons b bs ih =>
    intro i hi
    cases i with
    | zero => rfl
    | succ n => simpa [setActiveAt] using ih n (Nat.lt_of_succ_lt_succ hi)

theorem addActiveById_spec (tid : String) :
    ∀ panels : List TabPanel,
      panels.countP (fun p => p.active) = 0 →
      (∃ p ∈ panels, p.id = tid) →
      ∃ ps, addActiveById panels tid = some ps
        ∧ ps.countP (fun p => p.active) = 1
        ∧ (∀ q ∈ ps, q.active → q.id = tid) := by
  intro panels
  induction panels with
  | nil => rintro _ ⟨p, hp, _⟩; cases hp
  | cons p ps ih =>
    intro h0 hex
    rw [List.countP_cons] at h0
    have hp : p.active = false := by
      by_contra hb
      simp [eq_true_of_ne_false hb] at h0
    have hps : ps.countP (fun x => x.active) = 0 := by
      omega
    by_cases hid : p.id = tid
    · refine ⟨{ p with active := true } :: ps, ?_, ?_, ?_⟩
      · simp [addActiveById, hid]
      · simp [List.countP_cons, hps]
      · intro q hq hqa
        rcases List.mem_cons.mp hq with rfl | hq'
        · exact hid
        · exfalso
          have : ps.countP (fun x => x.active) ≠ 0 := by
            have : 0 < ps.countP (fun x => x.active) :=
              List.countP_pos_iff.mpr ⟨q, hq', by simp [hqa]⟩
            omega
          exact this hps
    · rcases hex with ⟨w, hw, hwid⟩
      rcases List.mem_cons.mp hw with rfl | hw'
      · exact absurd hwid hid
      · rcases ih hps ⟨w, hw', hwid⟩ with ⟨l, hl, hcnt, hall⟩
        refine ⟨p :: l, ?_, ?_, ?_⟩
        · simp [addActiveById, hid, hl]
        · simp [List.countP_cons, hcnt, hp]
        · intro q hq hqa
          rcases List.mem_cons.mp hq with rfl | hq'
          · rw [hp] at hqa; cases hqa
          · exact hall q hq' hqa

/-- C6: clicking tab button i deactivates every button and panel, then
activates button i and the first panel whose id equals that button's
data-tab attribute: afterwards exactly one button and exactly one
panel are active, both corresponding to i, provided the named panel
exists. -/
theorem clickTab_exactly_one_active (btns : List TabBtn) (panels : List TabPanel)
    (i : Nat) (hi : i < btns.length)
    (hex : ∃ p ∈ panels, p.id = (btns.get ⟨i, hi⟩).dataTab) :
    ∃ bp : List TabBtn × List TabPanel,
      clickTab btns panels i = some bp
      ∧ bp.1.countP (fun b => b.active) = 1
      ∧ bp.1.get? i = some ⟨(btns.get ⟨i, hi⟩).dataTab, true⟩
      ∧ bp.2.countP (fun p => p.active) = 1
      ∧ (∀ q ∈ bp.2, q.active → q.id = (btns.get ⟨i, hi⟩).dataTab) := by
  have hex1 : ∃ p ∈ panels.map (fun p => { p with active := false }),
      p.id = (btns.get ⟨i, hi⟩).dataTab := by
    rcases hex with ⟨p, hp, hpid⟩
    exact ⟨{ p with active := false }, List.mem_map_of_mem _ hp, hpid⟩
  rcases addActiveById_spec (btns.get ⟨i, hi⟩).dataTab
      (panels.map (fun p => { p with active := false }))
      (countP_panels_deactivated panels) hex1 with ⟨ps, hps, hcnt, hall⟩
  refine ⟨(setActiveAt (btns.map (fun b => { b with active := false })) i, ps),
    ?_, ?_, ?_, hcnt, hall⟩
  · simp only [clickTab, dif_pos hi]
    rw [hps]
    rfl
  · exact setActiveAt_countP _ i (by simpa using hi) (countP_deactivated btns)
  · rw [setActiveAt_get? _ i (by simpa using hi), List.get?_map,
      List.get?_eq_get hi]
    rfl

/-- Witness for the tab claim at a concrete configuration: clicking
the second of two buttons yields that button and its panel as the
unique active pair. -/
theorem clickTab_exactly_one_active_witness :
    ∃ bp : List TabBtn × List TabPanel,
      clickTab [⟨"panel-a", true⟩, ⟨"panel-b", false⟩]
          [⟨"panel-a", true⟩, ⟨"panel-b", false⟩] 1 = some bp
      ∧ bp.1.countP (fun b => b.active) = 1
      ∧ bp.1.get? 1 = some ⟨"panel-b", true⟩
      ∧ bp.2.countP (fun p => p.active) = 1
      ∧ (∀ q ∈ bp.2, q.active → q.id = "panel-b") := by
  have h := clickTab_exactly_one_active
    [⟨"panel-a", true⟩, ⟨"panel-b", false⟩]
    [⟨"panel-a", true⟩, ⟨"panel-b", false⟩] 1 (by decide)
    ⟨⟨"panel-b", false⟩, by decide, rfl⟩
  exact h

/-! ### Claims about the fortune spinner -/

theorem spinIndex_lt (r : ℚ) (h0 : 0 ≤ r) (h1 : r < 1) : spinIndex r < 5 := by
  simp only [spinIndex, fortunes, List.length_cons, List.length_nil]
  norm_num
  have h5 : ⌊r * (5 : ℚ)⌋ < 5 := by
    rw [Int.floor_lt]
    push_cast
    nlinarith
  have h0' : 0 ≤ ⌊r * (5 : ℚ)⌋ := Int.floor_nonneg.mpr (by positivity)
  omega

theorem spinMessage_mem (r : ℚ) (h0 : 0 ≤ r) (h1 : r < 1) :
    spinMessage r ∈ fortunes := by
  have h := spinIndex_lt r h0 h1
  rw [spinMessage]
  interval_cases h : spinIndex r <;> simp [fortunes]

theorem spinIndex_div (k m : ℕ) (hm : 0 < m) :
    spinIndex ((k : ℚ) / ((5 * m : ℕ) : ℚ)) = k / m := by
  have hq : ((k : ℚ) / ((5 * m : ℕ) : ℚ)) * ((fortunes.length : ℕ) : ℚ)
      = (k : ℚ) / (m : ℚ) := by
    have hm' : (m : ℚ) ≠ 0 := by positivity
    simp only [fortunes, List.length_cons, List.length_nil]
    push_cast
    field_simp
    ring
  rw [spinIndex, hq, Rat.floor_natCast_div_natCast, ← Int.natCast_div]
  exact Int.toNat_natCast _

theorem spin_uniform_choice (m : ℕ) (hm : 0 < m) (i : ℕ) (hi : i < 5) :
    ((Finset.range (5 * m)).filter
      (fun k : ℕ => spinIndex ((k : ℚ) / ((5 * m : ℕ) : ℚ)) = i)).card = m := by
  have hcongr : (Finset.range (5 * m)).filter
      (fun k : ℕ => spinIndex ((k : ℚ) / ((5 * m : ℕ) : ℚ)) = i)
      = (Finset.range (5 * m)).filter (fun k => k / m = i) := by
    apply Finset.filter_congr
    intro k _
    rw [spinIndex_div k m hm]
  rw [hcongr]
  have hset : (Finset.range (5 * m)).filter (fun k => k / m = i)
      = Finset.Ico (m * i) (m * (i + 1)) := by
    ext k
    simp only [Finset.mem_filter, Finset.mem_range, Finset.mem_Ico]
    constructor
    · rintro ⟨hk, rfl⟩
      refine ⟨by rw [Nat.mul_comm]; exact Nat.div_mul_le_self k m, ?_⟩
      calc k = m * (k / m) + k % m := (Nat.div_add_mod k m).symm
        _ < m * (k / m) + m := Nat.add_lt_add_left (Nat.mod_lt k hm) _
        _ = m * (k / m + 1) := by ring
    · rintro ⟨hlo, hhi⟩
      refine ⟨?_, ?_⟩
      · calc k < m * (i + 1) := hhi
          _ ≤ m * 5 := Nat.mul_le_mul_left m hi
          _ = 5 * m := Nat.mul_comm m 5
      · exact Nat.div_eq_of_lt_le (by rw [Nat.mul_comm] at hlo; exact hlo)
          (by rw [Nat.mul_comm] at hhi; exact hhi)
  rw [hset, Nat.card_Ico, Nat.mul_succ, Nat.add_sub_cancel_left]

/-- C8: for every value of the random source, one spin resets the
rotation to zero and then animates to 3 times 360 degrees plus an
integer offset between 0 and 359, and after the fixed duration
displays exactly one message, a member of the fixed 5-entry fortune
list; when the random source is a uniform discrete approximation of
the uniform distribution on the unit interval (the 5m equally spaced
samples k divided by 5m), each of the 5 entries is selected for
exactly m of the samples. -/
theorem spinWheel_reset_offset_uniform (r1 r2 : ℚ)
    (h10 : 0 ≤ r1) (h11 : r1 < 1) (h20 : 0 ≤ r2) (h21 : r2 < 1) :
    fortunes.length = 5
    ∧ spinWheel r1 r2 =
        [ SpinEvent.setTransition "none",
          SpinEvent.setTransform 0,
          SpinEvent.setTransition "transform 2s ease-out",
          SpinEvent.setTransform (360 * 3 + ⌊r1 * 360⌋),
          SpinEvent.setResult (spinMessage r2),
          SpinEvent.confettiBurst ]
    ∧ (0 ≤ ⌊r1 * 360⌋ ∧ ⌊r1 * 360⌋ ≤ 359)
    ∧ ((spinWheel r1 r2).filter isSetResult).length = 1
    ∧ spinMessage r2 ∈ fortunes
    ∧ (∀ m : ℕ, 0 < m → ∀ i : ℕ, i < 5 →
        ((Finset.range (5 * m)).filter
          (fun k : ℕ => spinIndex ((k : ℚ) / ((5 * m : ℕ) : ℚ)) = i)).card = m) := by
  refine ⟨rfl, rfl, ?_, ?_, spinMessage_mem r2 h20 h21, ?_⟩
  · constructor
    · exact Int.floor_nonneg.mpr (by positivity)
    · have : ⌊r1 * (360 : ℚ)⌋ < 360 := by
        rw [Int.floor_lt]
        push_cast
        nlinarith
      omega
  · simp [spinWheel, isSetResult]
  · intro m hm i hi
    exact spin_uniform_choice m hm i hi

/-- Witness for the spin claim at the concrete sample one half for
both draws: offset 180, message at index 2, with the uniform count
instantiated at one sample per entry. -/
theorem spinWheel_reset_offset_uniform_witness :
    spinWheel (1/2) (1/2) =
      [ SpinEvent.setTransition "none",
        SpinEvent.setTransform 0,
        SpinEvent.setTransition "transform 2s ease-out",
        SpinEvent.setTransform (360 * 3 + ⌊(1/2 : ℚ) * 360⌋),
        SpinEvent.setResult (spinMessage (1/2)),
        SpinEvent.confettiBurst ]
    ∧ (0 ≤ ⌊(1/2 : ℚ) * 360⌋ ∧ ⌊(1/2 : ℚ) * 360⌋ ≤ 359)
    ∧ spinMessage (1/2) ∈ fortunes
    ∧ ((Finset.range (5 * 1)).filter
        (fun k : ℕ => spinIndex ((k : ℚ) / ((5 * 1 : ℕ) : ℚ)) = 2)).card = 1 := by
  have h := spinWheel_reset_offset_uniform (1/2) (1/2)
    (by norm_num) (by norm_num) (by norm_num) (by norm_num)
  exact ⟨h.2.1, h.2.2.1, h.2.2.2.2.1, h.2.2.2.2.2 1 (by norm_num) 2 (by norm_num)⟩

/-! ### Claims about initialization guards and the voice button -/

theorem mem_optL (x l : Listener) (b : Bool) :
    x ∈ optL b l ↔ (b = true ∧ x = l) := by
  cases b <;> simp [optL]

/-- C9: when an optional element is absent at initialization, every
widget except the chart-toggle and produce-grid paths is guarded and
silently skips its registration; initialization throws exactly when
the chart toggle element is absent (aborting before the grid code),
and the chart toggle click handler throws exactly when the chart panel
is absent. -/
theorem init_guard_consistency (d : Dom) :
    ((initPage d).2 = true ↔ d.chartToggle = false)
    ∧ ((initPage d).1.count Listener.tabBtn = d.tabBtns)
    ∧ (Listener.imageInput ∈ (initPage d).1 ↔ d.imageInput = true)
    ∧ (Listener.spinBtn ∈ (initPage d).1 ↔ d.spinBtn = true)
    ∧ (Listener.chatToggle ∈ (initPage d).1 ↔ d.toggle = true)
    ∧ (Listener.voiceBtn ∈ (initPage d).1 ↔ d.voiceBtn = true)
    ∧ (Listener.sendBtn ∈ (initPage d).1 ↔ d.sendBtn = true)
    ∧ (Listener.inputKeypress ∈ (initPage d).1 ↔ d.inputField = true)
    ∧ (Listener.chartToggle ∈ (initPage d).1 ↔ d.chartToggle = true)
    ∧ (Listener.gridInject ∈ (initPage d).1
        ↔ (d.chartToggle = true ∧ d.chartPanel = true))
    ∧ (∀ b, chartToggleClick true b = Except.ok (!b))
    ∧ (∀ b, (chartToggleClick false b).isOk = false) := by
  cases hc : d.chartToggle <;>
    refine ⟨by simp [initPage, hc], ?_, ?_, ?_, ?_, ?_, ?_, ?_, ?_, ?_,
      fun b => rfl, fun b => rfl⟩ <;>
    simp [initPage, hc, mem_optL, List.count_append, List.count_replicate,
      List.count_eq_zero, optL]

/-- C10: every voice-button click makes the chat panel visible
(removes hidden, adds visible) before the capability check, so the
panel is visible even in the unsupported branch, which additionally
alerts; the toggle button instead flips both classes. -/
theorem voiceClick_unconditional_visible (p : PanelClasses) (supported : Bool) :
    ((voiceClick p supported).1.hidden = false
      ∧ (voiceClick p supported).1.visible = true)
    ∧ voiceClick p false = (⟨false, true⟩, VoiceEffect.alertUnsupported)
    ∧ voiceClick p true = (⟨false, true⟩, VoiceEffect.recognitionStarted)
    ∧ (∀ q : PanelClasses, toggleClick q = ⟨!q.hidden, !q.visible⟩)
    ∧ toggleClick ⟨false, true⟩ = ⟨true, false⟩ := by
  refine ⟨?_, rfl, rfl, fun q => rfl, rfl⟩
  cases supported <;> exact ⟨rfl, rfl⟩

/-- Witness for the initialization-guard claim at a concrete document
state: with the chart toggle element missing, initialization throws,
while a present spin button is registered and the absent image input is
silently skipped; clicking the chart toggle with a missing panel
fails. -/
theorem init_guard_consistency_witness :
    (initPage ⟨3, false, true, true, true, true, true, false, true⟩).2 = true
    ∧ Listener.spinBtn ∈ (initPage ⟨3, false, true, true, true, true, true, false, true⟩).1
    ∧ Listener.imageInput ∉ (initPage ⟨3, false, true, true, true, true, true, false, true⟩).1
    ∧ Listener.chartToggle ∉ (initPage ⟨3, false, true, true, true, true, true, false, true⟩).1
    ∧ (chartToggleClick false false).isOk = false := by
  have h := init_guard_consistency ⟨3, false, true, true, true, true, true, false, true⟩
  refine ⟨h.1.mpr rfl, h.2.2.2.1.mpr rfl, ?_, ?_, h.2.2.2.2.2.2.2.2.2.2.2 false⟩
  · intro hmem
    exact Bool.noConfusion (h.2.2.1.mp hmem)
  · intro hmem
    exact Bool.noConfusion (h.2.2.2.2.2.2.2.2.1.mp hmem)

/-- Witness for the voice-button claim: from a hidden panel, a click
in the unsupported branch still leaves the panel visible and alerts,
while the toggle button flips a visible panel to hidden. -/
theorem voiceClick_unconditional_visible_witness :
    voiceClick ⟨true, false⟩ false = (⟨false, true⟩, VoiceEffect.alertUnsupported)
    ∧ toggleClick ⟨false, true⟩ = ⟨true, false⟩ :=
  ⟨(voiceClick_unconditional_visible ⟨true, false⟩ false).2.1,
   (voiceClick_unconditional_visible ⟨true, false⟩ false).2.2.2.2⟩

end NutriScan

